import Mathlib

set_option maxHeartbeats 1000000

/-!
Shallow embedding of `bin/helper_functions.py` from the AmpliconPipeline
repository, together with proofs checking the natural-language specification
against it.

Conventions used throughout:
* Python strings are Lean `String`s; character-level work is done on `List Char`.
* Python exceptions are modelled with `Except PyErr`; a function that can raise
  returns `Except PyErr α` and `.error e` models the exception `e` propagating.
* Filesystem state (directories, plain files, symlinks) is modelled by `FS`,
  and stateful functions live in the monad `M α := St → Except PyErr α × St`,
  so that the state produced up to the point of an exception is preserved
  (as it is for a propagating Python exception).
* `os.path.abspath` and `subprocess` execution are environment-dependent; they
  are passed in as explicit function parameters (`a` resp. `exec`).
* `logging.*` calls are modelled only where a claim talks about them (in
  `symlink_dictionary` and the orchestrator layer); in the pure helper
  functions they do not affect any returned value and are omitted.
-/

deriving instance DecidableEq for Except

/-- The Python exceptions that the embedded code can raise. -/
inductive PyErr where
  | indexError
  | typeError
  | fileExists
  | fileNotFound
  deriving DecidableEq, Repr

/-- Python `str.split(sep)` on a single-character separator, at character level:
splits on every occurrence of `sep`, keeping empty components, and always
returns a non-empty list (Python: `''.split('-') == ['']`). -/
def splitOnChar (sep : Char) : List Char → List (List Char)
  | [] => [[]]
  | c :: rest =>
    match splitOnChar sep rest with
    | [] => if c = sep then [[], []] else [[c]]
    | h :: t => if c = sep then [] :: h :: t else (c :: h) :: t

/-- os.path.basename for POSIX paths: the part after the last slash. -/
def basenameL (p : List Char) : List Char :=
  match (splitOnChar '/' p).reverse with
  | [] => p
  | b :: _ => b

/-- String-level wrapper for `basenameL`. -/
def basename (p : String) : String := String.mk (basenameL p.toList)

/-- Python `str.isdigit` (restricted to ASCII digits, which is what the OLC
naming convention uses): non-empty and consisting only of digits. -/
def isdigitL (s : List Char) : Bool := !s.isEmpty && s.all Char.isDigit

/-- Python substring containment `needle in hay` at character level. -/
def isSubL (needle : List Char) : List Char → Bool
  | [] => needle.isEmpty
  | c :: t => needle.isPrefixOf (c :: t) || isSubL needle t

/-- Python `needle in hay` on strings. -/
def containsSub (hay needle : String) : Bool := isSubL needle.toList hay.toList

/-- The 13-character sample identifier a file contributes:
`os.path.basename(file)[:13]`. -/
def sampleIdOf (f : String) : String := String.mk ((basenameL f.toList).take 13)

/-- Embedding of `valid_olc_id(filename)`.

Python source:
```
sample_id = os.path.basename(filename)[:13]
id_components = sample_id.split('-')
valid_status = False
if id_components[0].isdigit() and id_components[1] == 'SEQ' and id_components[2].isdigit():
    valid_status = True
else:
    logging.warning(...)
return valid_status
```
The `and` chain short-circuits, but the subscripts `id_components[1]` and
`id_components[2]` are evaluated unguarded once the preceding conjuncts are
true, so the function raises `IndexError` when the split has too few
components at that point; this is modelled by `.error .indexError`.
The `logging.warning` call does not affect the returned value and is omitted. -/
def valid_olc_id (filename : String) : Except PyErr Bool :=
  match splitOnChar '-' ((basenameL filename.toList).take 13) with
  | [] => Except.error PyErr.indexError
  | c0 :: rest =>
    if isdigitL c0 then
      match rest with
      | [] => Except.error PyErr.indexError
      | c1 :: rest2 =>
        if c1 = ['S', 'E', 'Q'] then
          match rest2 with
          | [] => Except.error PyErr.indexError
          | c2 :: _ => Except.ok (isdigitL c2)
        else Except.ok false
    else Except.ok false

example : valid_olc_id "2015-SEQ-0001_S1_L001_R1_001.fastq.gz" = Except.ok true := by decide
example : valid_olc_id "abc-SEQ-0001" = Except.ok false := by decide
example : valid_olc_id "2015-XXX-0001" = Except.ok false := by decide
example : valid_olc_id "" = Except.ok false := by decide
example : valid_olc_id "123" = Except.error PyErr.indexError := by decide
example : valid_olc_id "1234567890123" = Except.error PyErr.indexError := by decide
example : valid_olc_id "123456789-SEQ" = Except.error PyErr.indexError := by decide
example : valid_olc_id "1-SEQ-2-3-456" = Except.ok true := by decide
example : valid_olc_id "/tmp/dir/2015-SEQ-0001_R1.fastq.gz" = Except.ok true := by decide

/-- The accumulation loop of `retrieve_unique_sampleids`: for each file, test
`valid_olc_id` (an exception there propagates) and, if accepted, collect
`os.path.basename(file)[:13]`. -/
def collectIds : List String → Except PyErr (List String)
  | [] => Except.ok []
  | f :: rest =>
    match valid_olc_id f with
    | Except.error e => Except.error e
    | Except.ok b =>
      match collectIds rest with
      | Except.error e => Except.error e
      | Except.ok ids => Except.ok (if b then sampleIdOf f :: ids else ids)

/-- Embedding of `retrieve_unique_sampleids(fastq_file_list)`:
collect the sample id of every file accepted by `valid_olc_id`, then
deduplicate (`list(set(sample_id_list))`).  Python's set iteration order is
unspecified; the model uses `List.dedup` and all theorems about the result
only use membership and `Nodup`. -/
def retrieve_unique_sampleids (fastq_file_list : List String) : Except PyErr (List String) :=
  (collectIds fastq_file_list).map List.dedup

example : retrieve_unique_sampleids
    ["d/2015-SEQ-0001_S1_L001_R1_001.fastq.gz", "d/2015-SEQ-0001_S1_L001_R2_001.fastq.gz"]
    = Except.ok ["2015-SEQ-0001"] := by decide
example : retrieve_unique_sampleids ["123"] = Except.error PyErr.indexError := by decide
example : retrieve_unique_sampleids ["nope.fastq.gz"] = Except.ok [] := by decide

/-- One iteration of the scanning loop in `get_readpair`: on a file whose
basename contains `sample_id`, assign it to the forward slot if the basename
contains `forward_id`, `elif` to the reverse slot if it contains `reverse_id`
(assignment overwrites: last match wins). -/
def pairStep (sample_id forward_id reverse_id : String)
    (acc : Option String × Option String) (f : String) : Option String × Option String :=
  if containsSub (basename f) sample_id then
    if containsSub (basename f) forward_id then (some f, acc.2)
    else if containsSub (basename f) reverse_id then (acc.1, some f)
    else acc
  else acc

/-- The whole scanning loop of `get_readpair`, starting from
`r1, r2 = None, None`. -/
def pairScan (sample_id forward_id reverse_id : String) (fastq_file_list : List String) :
    Option String × Option String :=
  fastq_file_list.foldl (pairStep sample_id forward_id reverse_id) (none, none)

/-- Embedding of `get_readpair(sample_id, fastq_file_list, forward_id='_R1',
reverse_id='_R2')`.  `a` models `os.path.abspath` (environment-dependent, so a
parameter).  After the scan, Python does
`return [os.path.abspath(r1), os.path.abspath(r2)]` when `r1 is not None`;
when `r2` is still `None`, `os.path.abspath(None)` raises `TypeError`.
When `r1 is None` the function logs at debug level and implicitly returns
`None`, modelled as `.ok none`. -/
def get_readpair (a : String → String) (sample_id : String) (fastq_file_list : List String)
    (forward_id reverse_id : String) : Except PyErr (Option (String × String)) :=
  match pairScan sample_id forward_id reverse_id fastq_file_list with
  | (some r1, some r2) => Except.ok (some (a r1, a r2))
  | (some _, none) => Except.error PyErr.typeError
  | (none, _) => Except.ok none

example : get_readpair id "2015-SEQ-0001"
    ["d/2015-SEQ-0001_S1_L001_R1_001.fastq.gz", "d/2015-SEQ-0001_S1_L001_R2_001.fastq.gz"]
    "_R1" "_R2"
    = Except.ok (some ("d/2015-SEQ-0001_S1_L001_R1_001.fastq.gz",
                       "d/2015-SEQ-0001_S1_L001_R2_001.fastq.gz")) := by decide
example : get_readpair id "2015-SEQ-0001" ["d/2015-SEQ-0001_S1_L001_R1_001.fastq.gz"]
    "_R1" "_R2" = Except.error PyErr.typeError := by decide
example : get_readpair id "2015-SEQ-0001" ["d/2015-SEQ-0001.fastq.gz"]
    "_R1" "_R2" = Except.ok none := by decide

/-- The value type of the sample dictionary.  A Python value stored by
`populate_sample_dictionary` is either `None` (absent pairing) or a two-element
list of paths; the inner `Option`s keep slots nullable so that
`symlink_dictionary` can be stated over arbitrary registry contents (the
claim set explicitly discusses a hypothetical pair with a null slot). -/
abbrev SVal := Option (Option String × Option String)

/-- The sample dictionary: insertion-ordered association list, like a Python
dict with string keys. -/
abbrev SDict := List (String × SVal)

/-- Lift a `get_readpair` result into a stored dictionary value. -/
def liftPair (r : Option (String × String)) : SVal :=
  r.map (fun p => (some p.1, some p.2))

/-- Python `d[k] = v` on an insertion-ordered dict: overwrite in place if the
key is present, else append. -/
def dictInsert (k : String) (v : SVal) : SDict → SDict
  | [] => [(k, v)]
  | (k', v') :: rest => if k' = k then (k, v) :: rest else (k', v') :: dictInsert k v rest

/-- Python `d.get(k)` / key lookup on the association-list dict. -/
def dictLookup (k : String) : SDict → Option SVal
  | [] => none
  | (k', v) :: rest => if k' = k then some v else dictLookup k rest

/-- The loop of `populate_sample_dictionary`:
`sample_dictionary[sample_id] = get_readpair(sample_id, fastq_file_list)`
for each id, in order, starting from the accumulator `d`. -/
def populateGo (a : String → String) (fastq_file_list : List String) :
    List String → SDict → Except PyErr SDict
  | [], d => Except.ok d
  | sid :: rest, d =>
    match get_readpair a sid fastq_file_list "_R1" "_R2" with
    | Except.error e => Except.error e
    | Except.ok r => populateGo a fastq_file_list rest (dictInsert sid (liftPair r) d)

/-- Embedding of `populate_sample_dictionary(sample_id_list, fastq_file_list)`. -/
def populate_sample_dictionary (a : String → String) (sample_id_list : List String)
    (fastq_file_list : List String) : Except PyErr SDict :=
  populateGo a fastq_file_list sample_id_list []

/-- Embedding of `get_sample_dictionary(directory)`.  The call
`retrieve_fastqgz(directory)` is a directory glob; its result is taken here as
the parameter `fastq_file_list` (the stateful orchestrator below performs the
glob against the modelled filesystem before calling this). -/
def get_sample_dictionary (a : String → String) (fastq_file_list : List String) :
    Except PyErr SDict :=
  match retrieve_unique_sampleids fastq_file_list with
  | Except.error e => Except.error e
  | Except.ok ids => populate_sample_dictionary a ids fastq_file_list

example : get_sample_dictionary id ["2015-SEQ-0001.fastq.gz"]
    = Except.ok [("2015-SEQ-0001", (none : Option (Option String × Option String)))] := by decide
example : get_sample_dictionary id
    ["d/2015-SEQ-0001_S1_L001_R1_001.fastq.gz", "d/2015-SEQ-0001_S1_L001_R2_001.fastq.gz"]
    = Except.ok [("2015-SEQ-0001",
        some (some "d/2015-SEQ-0001_S1_L001_R1_001.fastq.gz",
              some "d/2015-SEQ-0001_S1_L001_R2_001.fastq.gz"))] := by decide

/-- Python `s.replace('_S', '_00_S')` at character level: scan left to right,
replace every (non-overlapping) occurrence of `_S` by `_00_S`, and continue
scanning after the inserted text. -/
def pyReplace_S : List Char → List Char
  | [] => []
  | [c] => [c]
  | c :: c2 :: rest2 =>
    if c = '_' ∧ c2 = 'S' then
      '_' :: '0' :: '0' :: '_' :: 'S' :: pyReplace_S rest2
    else c :: pyReplace_S (c2 :: rest2)

/-- String-level wrapper for `pyReplace_S`. -/
def pyReplaceS (s : String) : String := String.mk (pyReplace_S s.toList)

example : pyReplaceS "2015-SEQ-0001_S1_L001_R1_001.fastq.gz"
    = "2015-SEQ-0001_00_S1_L001_R1_001.fastq.gz" := by decide
example : pyReplaceS "2015-SEQ-0001_S1_S2.fastq.gz"
    = "2015-SEQ-0001_00_S1_00_S2.fastq.gz" := by decide
example : pyReplaceS "no-marker.fastq.gz" = "no-marker.fastq.gz" := by decide

/-- Whether a character list contains the marker `_S` as a substring. -/
def hasMarker : List Char → Bool
  | [] => false
  | c :: rest =>
    match rest with
    | [] => false
    | c2 :: _ => (c = '_' ∧ c2 = 'S' : Bool) || hasMarker rest

/-- Embedding of the loop body of `append_dummy_barcodes(path)` applied to a
file list (the enclosing `retrieve_fastqgz(path)` glob happens in the
orchestrator).  The result is the ordered list of `os.rename` calls performed:
for every file accepted by `valid_olc_id`, the pair
`(os.path.abspath(file), os.path.abspath(file).replace('_S', '_00_S'))`;
files rejected by the validator cause no rename; a validator exception
propagates.  `a` models `os.path.abspath`. -/
def append_dummy_barcodes (a : String → String) : List String → Except PyErr (List (String × String))
  | [] => Except.ok []
  | f :: rest =>
    match valid_olc_id f with
    | Except.error e => Except.error e
    | Except.ok b =>
      match append_dummy_barcodes a rest with
      | Except.error e => Except.error e
      | Except.ok ops => Except.ok (if b then (a f, pyReplaceS (a f)) :: ops else ops)

example : append_dummy_barcodes id ["2015-SEQ-0001_S1_S2.fastq.gz"]
    = Except.ok [("2015-SEQ-0001_S1_S2.fastq.gz", "2015-SEQ-0001_00_S1_00_S2.fastq.gz")] := by
  decide
example : append_dummy_barcodes id ["invalid.fastq.gz"] = Except.ok [] := by decide

/-- A model of the POSIX filesystem slice the program touches: directories,
plain files, and symlinks `(link path, target)`.  All paths are stored in
full. -/
structure FS where
  dirs : List String
  files : List String
  links : List (String × String)
  deriving DecidableEq, Repr

/-- Severities used by the `logging` calls. -/
inductive LogLevel where
  | debug
  | info
  | warning
  | error
  deriving DecidableEq, Repr

/-- Program state: the filesystem plus the log emitted so far. -/
structure St where
  fs : FS
  logs : List (LogLevel × String)
  deriving DecidableEq, Repr

/-- The effect monad: state-passing with Python-style exceptions.  On an
error, the state reached so far is kept (a propagating Python exception does
not undo side effects). -/
def M (α : Type) : Type := St → Except PyErr α × St

/-- Monadic return. -/
def mPure {α : Type} (x : α) : M α := fun s => (Except.ok x, s)

/-- Monadic bind: an exception in the first action short-circuits, keeping the
state it left behind. -/
def mBind {α β : Type} (x : M α) (f : α → M β) : M β := fun s =>
  match x s with
  | (Except.ok v, s') => f v s'
  | (Except.error e, s') => (Except.error e, s')

/-- Raise an exception. -/
def mThrow {α : Type} (e : PyErr) : M α := fun s => (Except.error e, s)

/-- Python `try: x except: h` with a bare `except`: any exception from `x` is
swallowed (its value is not even inspected) and the handler runs from the
state `x` reached, so side effects of the failed attempt remain. -/
def mTry {α : Type} (x : M α) (h : M α) : M α := fun s =>
  match x s with
  | (Except.ok v, s') => (Except.ok v, s')
  | (Except.error _, s') => h s'

/-- Lift a pure `Except` computation (no state access) into `M`. -/
def mLift {α : Type} (x : Except PyErr α) : M α := fun s => (x, s)

/-- Emit one log record. -/
def mLog (lv : LogLevel) (msg : String) : M Unit := fun s =>
  (Except.ok (), { s with logs := s.logs ++ [(lv, msg)] })

/-- All names present in the filesystem (files, link names, directories). -/
def fsNames (fs : FS) : List String := fs.files ++ fs.links.map Prod.fst ++ fs.dirs

/-- `os.path.join` for POSIX, as used here (second component never empty):
an absolute second component wins; otherwise join with a slash unless one is
already there. -/
def pyJoin (a b : String) : String :=
  if b.toList.head? = some '/' then b
  else if a = "" ∨ a.toList.getLast? = some '/' then a ++ b
  else a ++ "/" ++ b

/-- `os.mkdir`: raises `FileExistsError` when anything already has that name,
otherwise records the directory. -/
def mkdirM (d : String) : M Unit := fun s =>
  if d ∈ fsNames s.fs then (Except.error PyErr.fileExists, s)
  else (Except.ok (), { s with fs := { s.fs with dirs := d :: s.fs.dirs } })

/-- `os.symlink(target, linkpath)`: raises `FileExistsError` when anything
already has the link name, otherwise records the symlink.  The target is not
required to exist (dangling symlinks are allowed by POSIX). -/
def symlinkM (target linkpath : String) : M Unit := fun s =>
  if linkpath ∈ fsNames s.fs then (Except.error PyErr.fileExists, s)
  else (Except.ok (), { s with fs := { s.fs with links := (linkpath, target) :: s.fs.links } })

/-- `os.rename(o, n)`: raises `FileNotFoundError` when no file or symlink has
the old name, otherwise renames it in place (the target of a renamed symlink
is unaffected). -/
def renameM (o n : String) : M Unit := fun s =>
  if o ∈ s.fs.files ∨ o ∈ s.fs.links.map Prod.fst then
    (Except.ok (), { s with fs := { s.fs with
        files := s.fs.files.map (fun f => if f = o then n else f),
        links := s.fs.links.map (fun l => if l.1 = o then (n, l.2) else l) } })
  else (Except.error PyErr.fileNotFound, s)

/-- Whether path `p` matches the glob pattern `os.path.join(dir, '*.fastq.gz')`:
`p` is directly inside `dir`, its name ends with `.fastq.gz`, and `*` does not
match a leading dot. -/
def globMatch (dir p : String) : Bool :=
  let dirL := dir.toList ++ ['/']
  dirL.isPrefixOf p.toList &&
    (let rest := p.toList.drop dirL.length
     decide (¬ '/' ∈ rest) && ".fastq.gz".toList.isSuffixOf rest &&
       decide (rest.head? ≠ some '.'))

/-- Embedding of `retrieve_fastqgz(directory)`:
`glob.glob(os.path.join(directory, '*.fastq.gz'))` against the modelled
filesystem.  Symlinks are listed like plain files (glob follows names, not
targets); order is the storage order (glob order is OS-dependent). -/
def retrieve_fastqgzM (directory : String) : M (List String) := fun s =>
  (Except.ok ((s.fs.files ++ s.fs.links.map Prod.fst).filter (globMatch directory)), s)

/-- Embedding of `create_symlink(target, destination_folder)`:
`os.symlink(target, os.path.join(destination_folder, os.path.basename(target)))`.
The argument evaluation `os.path.basename(target)` raises `TypeError` when the
target is Python `None`. -/
def create_symlink (target : Option String) (destination_folder : String) : M Unit :=
  match target with
  | none => mThrow PyErr.typeError
  | some t => symlinkM t (pyJoin destination_folder (basename t))

/-- Python `value[i]` for a registry value: subscripting `None` raises
`TypeError`; a pair yields its forward (`0`) or reverse (`1`) slot. -/
def subscriptPair (v : SVal) (i : Nat) : M (Option String) :=
  match v with
  | none => mThrow PyErr.typeError
  | some p => mPure (if i = 0 then p.1 else p.2)

/-- The `logging.debug` message for a successfully materialized sample. -/
def dbgMsg (k : String) : String := "Created symlinks for " ++ k

/-- The `logging.error` message used by the bare-except handler of
`symlink_dictionary`, whatever the actual cause of the exception. -/
def errMsg (k : String) : String := "Symbolic links to read pair " ++ k ++ " already exist"

/-- The `try` block body for one registry entry:
`create_symlink(value[0], destination_folder)`,
`create_symlink(value[1], destination_folder)`, then the debug log. -/
def symlinkEntryBody (dest k : String) (v : SVal) : M Unit :=
  mBind (subscriptPair v 0) (fun t0 =>
    mBind (create_symlink t0 dest) (fun _ =>
      mBind (subscriptPair v 1) (fun t1 =>
        mBind (create_symlink t1 dest) (fun _ =>
          mLog LogLevel.debug (dbgMsg k)))))

/-- One iteration of the `symlink_dictionary` loop: the try block above with a
bare `except` that logs the (possibly misleading) already-exist error message
naming the sample. -/
def symlinkEntry (dest : String) (kv : String × SVal) : M Unit :=
  mTry (symlinkEntryBody dest kv.1 kv.2) (mLog LogLevel.error (errMsg kv.1))

/-- The `symlink_dictionary` loop over the dictionary items, in order. -/
def symlinkGo (dest : String) : SDict → M Unit
  | [] => mPure ()
  | kv :: rest => mBind (symlinkEntry dest kv) (fun _ => symlinkGo dest rest)

/-- Embedding of `symlink_dictionary(sample_dictionary, destination_folder)`:
the initial info log, then the per-entry loop. -/
def symlink_dictionary (sample_dictionary : SDict) (destination_folder : String) : M Unit :=
  mBind (mLog LogLevel.info ("Creating symlinks for samples at " ++ destination_folder))
    (fun _ => symlinkGo destination_folder sample_dictionary)

/-- The rename loop of `append_dummy_barcodes`, interleaving validation and
`os.rename(os.path.abspath(file), os.path.abspath(file).replace('_S', '_00_S'))`
exactly as the Python `for` loop does (so a validator exception leaves earlier
renames in place).  `append_dummy_barcodes` (above) computes the same renames
as a pure list. -/
def appendGo (a : String → String) : List String → M Unit
  | [] => mPure ()
  | f :: rest =>
    mBind (mLift (valid_olc_id f)) (fun b =>
      mBind (if b then renameM (a f) (pyReplaceS (a f)) else mPure ())
        (fun _ => appendGo a rest))

/-- Embedding of `append_dummy_barcodes(path)` as a filesystem action: glob
the path, run the rename loop, then the final info log. -/
def append_dummy_barcodesM (a : String → String) (path : String) : M Unit :=
  mBind (retrieve_fastqgzM path) (fun files =>
    mBind (appendGo a files) (fun _ =>
      mLog LogLevel.info ("Added dummy barcodes to all valid OLC *.fastq.gz files in " ++ path)))

/-- Embedding of `create_sampledata_artifact(datadir, qiimedir)`.  `exec`
models `execute_command` / `subprocess.Popen(...).communicate()`: the captured
standard streams of the external command are environment input.  The exit
status is never inspected; the captured text is logged at debug level when
non-empty (the Python code tests this with `is not ''`, modelled as string
inequality), and the fixed artifact path is returned. -/
def create_sampledata_artifact (exec : String → String × String)
    (datadir qiimedir : String) : M String :=
  let artifact := pyJoin qiimedir "paired-sample-data.qza"
  let cmd := "qiime tools import --type \x27SampleData[PairedEndSequencesWithQuality]\x27 " ++
    "--input-path " ++ datadir ++ " --output-path " ++ artifact ++
    " --input-format CasavaOneEightSingleLanePerSampleDirFmt"
  let r := exec cmd
  mBind (if r.1 ≠ "" ∨ r.2 ≠ "" then
          mLog LogLevel.debug ("OUT: " ++ r.1 ++ "\nERR: " ++ r.2)
         else mPure ()) (fun _ =>
    mBind (mLog LogLevel.info "Successfully created QIIME 2 data Artifact") (fun _ =>
      mPure artifact))

/-- Embedding of `project_setup(outdir, inputdir)`:
1. `os.mkdir(outdir)`, `os.mkdir(outdir/data)`, `os.mkdir(outdir/qiime2)`
   (the first raises `FileExistsError`, uncaught, when `outdir` exists);
2. debug log;
3. `get_sample_dictionary(inputdir)` (glob, then the pure pipeline; its debug
   log of the dictionary repr is elided as `"Sample Dictionary"`);
4. `symlink_dictionary` into `outdir/data`;
5. `append_dummy_barcodes` on `outdir/data`;
6. `create_sampledata_artifact`, returning the artifact path.
No step removes anything; there is no cleanup handler anywhere. -/
def project_setup (a : String → String) (exec : String → String × String)
    (outdir inputdir : String) : M String :=
  mBind (mkdirM outdir) (fun _ =>
    mBind (mkdirM (pyJoin outdir "data")) (fun _ =>
      mBind (mkdirM (pyJoin outdir "qiime2")) (fun _ =>
        mBind (mLog LogLevel.debug ("Created QIIME2 analysis folder: " ++ outdir)) (fun _ =>
          mBind (retrieve_fastqgzM inputdir) (fun files =>
            mBind (mLift (get_sample_dictionary a files)) (fun d =>
              mBind (mLog LogLevel.debug "Sample Dictionary") (fun _ =>
                mBind (symlink_dictionary d (pyJoin outdir "data")) (fun _ =>
                  mBind (append_dummy_barcodesM a (pyJoin outdir "data")) (fun _ =>
                    mBind (mLog LogLevel.info "Creating sample data artifact for QIIME 2...")
                      (fun _ =>
                        create_sampledata_artifact exec (pyJoin outdir "data")
                          (pyJoin outdir "qiime2")))))))))))

/-- C1.  The claim says that for every filename whose basename is shorter than
the 13-character prefix, or whose first 13 characters contain fewer than two
dashes, `valid_olc_id` returns false and never raises.  The code contradicts
this (and the spec requirement that index access be guarded): on the
3-character, dash-free filename "123" the first split component "123" is all
digits, so the unguarded subscript `id_components[1]` raises `IndexError`;
likewise for the 13-character dash-free "1234567890123" and for
"123456789-SEQ" (one dash) at `id_components[2]`. -/
theorem valid_olc_id_raises_unguarded_index :
    valid_olc_id "123" = Except.error PyErr.indexError ∧
    valid_olc_id "1234567890123" = Except.error PyErr.indexError ∧
    valid_olc_id "123456789-SEQ" = Except.error PyErr.indexError := by
  refine ⟨by decide, by decide, by decide⟩

/-- C4 counterexample.  The claim says `valid_olc_id` accepts a filename iff
the first 13 characters of its basename split on '-' into EXACTLY three
components of shape digits/SEQ/digits.  "1-SEQ-2-3-456" splits into five
components, yet the function accepts it, because the code only inspects
`id_components[0]`, `[1]` and `[2]`. -/
theorem valid_olc_id_extra_components_cex :
    valid_olc_id "1-SEQ-2-3-456" = Except.ok true ∧
    (splitOnChar '-' ((basenameL "1-SEQ-2-3-456".toList).take 13)).length = 5 := by
  refine ⟨by decide, by decide⟩

/-- C4, amended.  `valid_olc_id` returns `True` iff the first 13 characters of
the basename split on '-' into AT LEAST three components whose first is
entirely digits (and non-empty), whose second is the literal `SEQ`, and whose
third is entirely digits; components beyond the third are ignored.  (On inputs
where the split is shorter but every inspected prefix matches, the function
raises instead of returning, and then both sides of the iff are false.) -/
theorem valid_olc_id_ok_true_iff (f : String) :
    valid_olc_id f = Except.ok true ↔
      ∃ c0 c1 c2 rest,
        splitOnChar '-' ((basenameL f.toList).take 13) = c0 :: c1 :: c2 :: rest ∧
        isdigitL c0 = true ∧ c1 = ['S', 'E', 'Q'] ∧ isdigitL c2 = true := by
  unfold valid_olc_id
  rcases hsplit : splitOnChar '-' ((basenameL f.toList).take 13) with _ | ⟨c0, _ | ⟨c1, _ | ⟨c2, rest⟩⟩⟩
  · simp
  · by_cases hd0 : isdigitL c0 = true <;> simp [hd0]
  · by_cases hd0 : isdigitL c0 = true <;> by_cases hseq : c1 = ['S', 'E', 'Q'] <;>
      simp [hd0, hseq]
  · by_cases hd0 : isdigitL c0 = true <;> by_cases hseq : c1 = ['S', 'E', 'Q']
    · simp only [hd0, hseq, if_true, Except.ok.injEq]
      constructor
      · intro h; exact ⟨c0, ['S', 'E', 'Q'], c2, rest, rfl, hd0, rfl, h⟩
      · rintro ⟨a, b, c, d, heq, h0, h1, h2⟩
        injection heq with ha hr1
        injection hr1 with hb hr2
        injection hr2 with hc hr3
        subst ha; subst hb; subst hc
        exact h2
    · simp [hd0, hseq]
    · simp [hd0, hseq]
    · simp [hd0, hseq]

/-- When the collection loop returns, its result holds exactly the sample ids
of the files the validator accepted. -/
theorem collectIds_mem (files : List String) :
    ∀ l, collectIds files = Except.ok l →
      ∀ s, s ∈ l ↔ ∃ f, f ∈ files ∧ valid_olc_id f = Except.ok true ∧ s = sampleIdOf f := by
  induction files with
  | nil =>
    intro l hl s
    simp only [collectIds] at hl
    injection hl with hl
    subst hl
    simp
  | cons f rest ih =>
    intro l hl s
    simp only [collectIds] at hl
    rcases hv : valid_olc_id f with e | b <;> rw [hv] at hl
    · cases hl
    · rcases hc : collectIds rest with e | ids <;> rw [hc] at hl
      · cases hl
      · injection hl with hl
        subst hl
        have hrest := ih ids hc s
        cases b
        · rw [if_neg (by simp)]
          constructor
          · intro hs
            obtain ⟨g, hg, h1, h2⟩ := hrest.mp hs
            exact ⟨g, List.mem_cons.mpr (Or.inr hg), h1, h2⟩
          · rintro ⟨g, hg, h1, h2⟩
            rcases List.mem_cons.mp hg with rfl | hgr
            · rw [hv] at h1
              exact absurd h1 (by simp)
            · exact hrest.mpr ⟨g, hgr, h1, h2⟩
        · rw [if_pos rfl]
          constructor
          · intro hs
            rcases List.mem_cons.mp hs with rfl | hsr
            · exact ⟨f, List.mem_cons_self f rest, hv, rfl⟩
            · obtain ⟨g, hg, h1, h2⟩ := hrest.mp hsr
              exact ⟨g, List.mem_cons.mpr (Or.inr hg), h1, h2⟩
          · rintro ⟨g, hg, h1, h2⟩
            rcases List.mem_cons.mp hg with rfl | hgr
            · subst h2
              exact List.mem_cons_self _ _
            · exact List.mem_cons.mpr (Or.inr (hrest.mpr ⟨g, hgr, h1, h2⟩))

/-- C7 counterexample.  The claim quantifies over every list of file paths and
says Sample Discovery returns a (possibly empty) deduplicated collection
rather than failing.  On the list `["123"]` — a file accepted by no validator —
`retrieve_unique_sampleids` does not return at all: the validator's unguarded
`id_components[1]` raises `IndexError`, which propagates. -/
theorem retrieve_unique_sampleids_raises_cex :
    retrieve_unique_sampleids ["123"] = Except.error PyErr.indexError := by decide

/-- C7, amended.  On every list of file paths on which Sample Discovery
returns (that is, on which the Identifier Validator raises on no file), the
result is the deduplicated collection of the 13-character identifiers of
exactly the files the validator accepted, with no element appearing twice;
in particular, when no file is accepted the result is the empty collection. -/
theorem retrieve_unique_sampleids_spec (files ids : List String)
    (h : retrieve_unique_sampleids files = Except.ok ids) :
    ids.Nodup ∧
    (∀ s, s ∈ ids ↔ ∃ f, f ∈ files ∧ valid_olc_id f = Except.ok true ∧ s = sampleIdOf f) ∧
    ((∀ f ∈ files, valid_olc_id f ≠ Except.ok true) → ids = []) := by
  rcases hc : collectIds files with e | l
  · rw [retrieve_unique_sampleids, hc] at h
    cases h
  · rw [retrieve_unique_sampleids, hc] at h
    injection h with h
    subst h
    have hmem := collectIds_mem files l hc
    refine ⟨List.nodup_dedup l, ?_, ?_⟩
    · intro s
      rw [List.mem_dedup]
      exact hmem s
    · intro hnone
      rw [List.eq_nil_iff_forall_not_mem]
      intro s hs
      obtain ⟨g, hg, h1, -⟩ := (hmem s).mp (List.mem_dedup.mp hs)
      exact hnone g hg h1

/-- Witness for C7: on a concrete singleton list the theorem applies with
`h` discharged by evaluation, and its membership characterization puts the
extracted identifier in the result. -/
theorem retrieve_unique_sampleids_spec_witness :
    "2015-SEQ-0001" ∈ ["2015-SEQ-0001"] ∧ List.Nodup ["2015-SEQ-0001"] := by
  obtain ⟨h1, h2, h3⟩ := retrieve_unique_sampleids_spec
    ["d/2015-SEQ-0001_S1_L001_R1_001.fastq.gz"] ["2015-SEQ-0001"] (by decide)
  exact ⟨(h2 "2015-SEQ-0001").mpr
    ⟨"d/2015-SEQ-0001_S1_L001_R1_001.fastq.gz", by simp, by decide, by decide⟩, h1⟩

/-- A forward slot, once populated, is never reset by later scan steps. -/
theorem pairScan_fst_isSome_mono (sid fid rid : String) (files : List String) :
    ∀ acc : Option String × Option String, acc.1.isSome = true →
      (files.foldl (pairStep sid fid rid) acc).1.isSome = true := by
  induction files with
  | nil => intro acc h; exact h
  | cons f rest ih =>
    intro acc h
    simp only [List.foldl_cons]
    apply ih
    unfold pairStep
    by_cases h1 : containsSub (basename f) sid = true <;>
      by_cases h2 : containsSub (basename f) fid = true <;>
      by_cases h3 : containsSub (basename f) rid = true <;>
      simp [h1, h2, h3, h]

/-- If some file matches the identifier and the forward marker, the scan ends
with a populated forward slot. -/
theorem pairScan_fst_some_of_exists (sid fid rid : String) (files : List String) :
    ∀ acc : Option String × Option String,
      (∃ f, f ∈ files ∧ containsSub (basename f) sid = true ∧
        containsSub (basename f) fid = true) →
      (files.foldl (pairStep sid fid rid) acc).1.isSome = true := by
  induction files with
  | nil =>
    rintro acc ⟨f, hf, -⟩
    exact absurd hf (List.not_mem_nil f)
  | cons f rest ih =>
    rintro acc ⟨g, hg, hgs, hgf⟩
    simp only [List.foldl_cons]
    rcases List.mem_cons.mp hg with rfl | hgr
    · apply pairScan_fst_isSome_mono
      unfold pairStep
      simp [hgs, hgf]
    · exact ih _ ⟨g, hgr, hgs, hgf⟩

/-- If no file matches the identifier without the forward marker but with the
reverse marker, the reverse slot stays empty through the scan. -/
theorem pairScan_snd_none (sid fid rid : String) (files : List String) :
    ∀ acc : Option String × Option String, acc.2 = none →
      (∀ f, f ∈ files → containsSub (basename f) sid = true →
        containsSub (basename f) fid = false → containsSub (basename f) rid = false) →
      (files.foldl (pairStep sid fid rid) acc).2 = none := by
  induction files with
  | nil => intro acc h _; exact h
  | cons f rest ih =>
    intro acc h hnone
    simp only [List.foldl_cons]
    apply ih
    · unfold pairStep
      by_cases h1 : containsSub (basename f) sid = true <;>
        by_cases h2 : containsSub (basename f) fid = true <;>
        by_cases h3 : containsSub (basename f) rid = true <;>
        simp_all [List.mem_cons]
    · intro g hg h1 h2
      exact hnone g (List.mem_cons.mpr (Or.inr hg)) h1 h2

/-- One scan step either leaves the reverse slot unchanged, or (through the
`elif` branch only) stores the current file, which then matched the identifier
and the reverse marker but NOT the forward marker. -/
theorem pairStep_snd_cases (sid fid rid f : String) (acc : Option String × Option String) :
    (pairStep sid fid rid acc f).2 = acc.2 ∨
      ((pairStep sid fid rid acc f).2 = some f ∧ containsSub (basename f) sid = true ∧
       containsSub (basename f) fid = false ∧ containsSub (basename f) rid = true) := by
  unfold pairStep
  by_cases h1 : containsSub (basename f) sid = true <;>
    by_cases h2 : containsSub (basename f) fid = true <;>
    by_cases h3 : containsSub (basename f) rid = true <;>
    simp [h1, h2, h3]

/-- A file that ends up in the reverse slot got there through the `elif`
branch: it matched the identifier and the reverse marker and did NOT carry the
forward marker (unless it was in the slot before the scan started). -/
theorem pairScan_snd_inv (sid fid rid : String) (files : List String) :
    ∀ acc : Option String × Option String, ∀ g,
      (files.foldl (pairStep sid fid rid) acc).2 = some g →
      acc.2 = some g ∨
        (containsSub (basename g) sid = true ∧ containsSub (basename g) fid = false ∧
         containsSub (basename g) rid = true) := by
  induction files with
  | nil => intro acc g h; exact Or.inl h
  | cons f rest ih =>
    intro acc g h
    simp only [List.foldl_cons] at h
    rcases ih _ g h with hstep | hprop
    · rcases pairStep_snd_cases sid fid rid f acc with hc | ⟨hc, hs, hf, hr⟩
      · rw [hc] at hstep
        exact Or.inl hstep
      · rw [hc] at hstep
        injection hstep with hstep
        subst hstep
        exact Or.inr ⟨hs, hf, hr⟩
    · exact Or.inr hprop

/-- C2 counterexample.  The claim says that with a forward match and no
reverse match `get_readpair` returns a pair whose reverse slot is unset,
without raising.  On this concrete input the scan ends with
`r1 = the file, r2 = None`, and the return statement
`[os.path.abspath(r1), os.path.abspath(r2)]` raises `TypeError` on
`os.path.abspath(None)` — no pair is returned. -/
theorem get_readpair_forward_only_cex :
    get_readpair id "2016-SEQ-0002" ["in/2016-SEQ-0002_S4_L001_R1_001.fastq.gz"] "_R1" "_R2"
      = Except.error PyErr.typeError := by decide

/-- C2, amended.  For every sample identifier and file list such that some
file's basename contains the identifier and the forward marker, but no file
whose basename contains the identifier also contains the reverse marker,
`get_readpair` RAISES `TypeError` (from `os.path.abspath(None)` on the unset
reverse slot) instead of returning a pair. -/
theorem get_readpair_forward_only (a : String → String) (sid : String) (files : List String)
    (hfwd : ∃ f, f ∈ files ∧ containsSub (basename f) sid = true ∧
      containsSub (basename f) "_R1" = true)
    (hnorev : ∀ f, f ∈ files → containsSub (basename f) sid = true →
      containsSub (basename f) "_R2" = false) :
    get_readpair a sid files "_R1" "_R2" = Except.error PyErr.typeError := by
  have h1 := pairScan_fst_some_of_exists sid "_R1" "_R2" files (none, none) hfwd
  have h2 := pairScan_snd_none sid "_R1" "_R2" files (none, none) rfl
    (fun f hf hs _ => hnorev f hf hs)
  unfold get_readpair pairScan
  rcases hps : files.foldl (pairStep sid "_R1" "_R2") (none, none) with ⟨r1, r2⟩
  rw [hps] at h1 h2
  simp only at h1 h2
  rcases r1 with - | x
  · simp at h1
  · subst h2
    rfl

/-- Witness for C2 at a concrete input, with both hypotheses discharged by
evaluation. -/
theorem get_readpair_forward_only_witness :
    get_readpair id "2015-SEQ-0001" ["in/2015-SEQ-0001_S1_L001_R1_001.fastq.gz"] "_R1" "_R2"
      = Except.error PyErr.typeError :=
  get_readpair_forward_only id "2015-SEQ-0001" ["in/2015-SEQ-0001_S1_L001_R1_001.fastq.gz"]
    (by decide) (by decide)

/-- C9 (confirmed).  In the scanning loop of `get_readpair`, a file whose
basename contains the sample identifier and the forward marker is assigned to
the forward slot and leaves the reverse slot untouched, regardless of whether
it also contains the reverse marker (the `elif` is not evaluated); and
consequently whatever file the full scan leaves in the reverse slot never
contains the forward marker. -/
theorem get_readpair_both_markers_forward (sid : String) :
    (∀ f (acc : Option String × Option String),
        containsSub (basename f) sid = true → containsSub (basename f) "_R1" = true →
        pairStep sid "_R1" "_R2" acc f = (some f, acc.2)) ∧
    (∀ files g, (pairScan sid "_R1" "_R2" files).2 = some g →
        containsSub (basename g) "_R1" = false) := by
  constructor
  · intro f acc h1 h2
    unfold pairStep
    rw [if_pos h1, if_pos h2]
  · intro files g h
    rcases pairScan_snd_inv sid "_R1" "_R2" files (none, none) g h with hn | ⟨-, hf, -⟩
    · simp at hn
    · exact hf

/-- Witness for C9: a file carrying the identifier and both `_R1` and `_R2`
is put in the forward slot and the reverse slot stays as it was. -/
theorem get_readpair_both_markers_forward_witness :
    pairStep "2015-SEQ-0001" "_R1" "_R2" (none, none) "2015-SEQ-0001_R1_R2.fastq.gz"
      = (some "2015-SEQ-0001_R1_R2.fastq.gz", none) :=
  (get_readpair_both_markers_forward "2015-SEQ-0001").1 "2015-SEQ-0001_R1_R2.fastq.gz"
    (none, none) (by decide) (by decide)

/-- Looking up a key just inserted yields the inserted value. -/
theorem dictLookup_insert_self (k : String) (v : SVal) (d : SDict) :
    dictLookup k (dictInsert k v d) = some v := by
  induction d with
  | nil => simp [dictInsert, dictLookup]
  | cons kv rest ih =>
    rcases kv with ⟨k', v'⟩
    by_cases hk : k' = k
    · subst hk
      simp [dictInsert, dictLookup]
    · simp [dictInsert, dictLookup, hk, ih]

/-- Inserting under a different key does not change a lookup. -/
theorem dictLookup_insert_ne (k k' : String) (hne : k' ≠ k) (v : SVal) (d : SDict) :
    dictLookup k (dictInsert k' v d) = dictLookup k d := by
  induction d with
  | nil => simp [dictInsert, dictLookup, hne]
  | cons kv rest ih =>
    rcases kv with ⟨k'', v''⟩
    by_cases hk : k'' = k'
    · subst hk
      simp [dictInsert, dictLookup, hne]
    · by_cases hk2 : k'' = k
      · subst hk2
        simp [dictInsert, dictLookup, hk]
      · simp [dictInsert, dictLookup, hk, hk2, ih]

/-- Identifiers not in the processed list keep their lookup through the
population loop. -/
theorem populateGo_lookup_of_not_mem (a : String → String) (files : List String) :
    ∀ ids : List String, ∀ acc d : SDict, ∀ sid,
      sid ∉ ids → populateGo a files ids acc = Except.ok d →
      dictLookup sid d = dictLookup sid acc := by
  intro ids
  induction ids with
  | nil =>
    intro acc d sid _ h
    simp only [populateGo] at h
    injection h with h
    subst h
    rfl
  | cons sid' rest ih =>
    intro acc d sid hmem h
    simp only [populateGo] at h
    rcases hr : get_readpair a sid' files "_R1" "_R2" with e | r <;> rw [hr] at h
    · cases h
    · have hne : sid' ≠ sid := fun hc => hmem (hc ▸ List.mem_cons_self sid' rest)
      have hrest : sid ∉ rest := fun hc => hmem (List.mem_cons.mpr (Or.inr hc))
      rw [ih _ d sid hrest h]
      exact dictLookup_insert_ne sid sid' hne (liftPair r) acc

/-- Every identifier fed to the population loop ends up with an entry whose
value is exactly the (lifted) result of its `get_readpair` call. -/
theorem populateGo_lookup (a : String → String) (files : List String) :
    ∀ ids : List String, ∀ acc d : SDict,
      populateGo a files ids acc = Except.ok d →
      ∀ sid, sid ∈ ids → ∃ r, get_readpair a sid files "_R1" "_R2" = Except.ok r ∧
        dictLookup sid d = some (liftPair r) := by
  intro ids
  induction ids with
  | nil =>
    intro acc d _ sid hmem
    exact absurd hmem (List.not_mem_nil sid)
  | cons sid' rest ih =>
    intro acc d h sid hmem
    simp only [populateGo] at h
    rcases hr : get_readpair a sid' files "_R1" "_R2" with e | r <;> rw [hr] at h
    · cases h
    · by_cases hin : sid ∈ rest
      · exact ih _ d h sid hin
      · have hsid : sid = sid' := by
          rcases List.mem_cons.mp hmem with h' | h'
          · exact h'
          · exact absurd h' hin
        subst hsid
        refine ⟨r, hr, ?_⟩
        rw [populateGo_lookup_of_not_mem a files rest _ d sid hin h]
        exact dictLookup_insert_self sid (liftPair r) acc

/-- C3 counterexample.  The claim says an identifier whose pairing result is
absent (no forward match) gets no registry entry at all.  On a directory
containing the single file `2015-SEQ-0001.fastq.gz` (valid identifier, no
`_R1`), discovery finds the identifier, `get_readpair` returns Python `None`,
and `populate_sample_dictionary` nevertheless stores
`sample_dictionary["2015-SEQ-0001"] = None`: the registry has an entry. -/
theorem get_sample_dictionary_absent_entry_cex :
    get_sample_dictionary id ["2015-SEQ-0001.fastq.gz"]
      = Except.ok [("2015-SEQ-0001", (none : SVal))] := by decide

/-- C3, amended.  The registry built by `get_sample_dictionary` contains an
entry for EVERY discovered identifier, and the entry's value is exactly the
result of that identifier's `get_readpair` call — in particular a null value
(not a dropped entry) when the pairing result is absent. -/
theorem get_sample_dictionary_entries (a : String → String) (files ids : List String)
    (d : SDict) (hids : retrieve_unique_sampleids files = Except.ok ids)
    (hd : get_sample_dictionary a files = Except.ok d) :
    ∀ sid, sid ∈ ids → ∃ r, get_readpair a sid files "_R1" "_R2" = Except.ok r ∧
      dictLookup sid d = some (liftPair r) := by
  unfold get_sample_dictionary at hd
  rw [hids] at hd
  exact populateGo_lookup a files ids [] d hd

/-- Witness for C3: on the concrete one-file directory the discovered
identifier has an entry and its stored value is `None`. -/
theorem get_sample_dictionary_entries_witness :
    dictLookup "2015-SEQ-0001" [("2015-SEQ-0001", (none : SVal))] = some none := by
  obtain ⟨r, hr, hl⟩ := get_sample_dictionary_entries id ["2015-SEQ-0001.fastq.gz"]
    ["2015-SEQ-0001"] [("2015-SEQ-0001", none)] (by decide) (by decide)
    "2015-SEQ-0001" (by simp)
  have hev : get_readpair id "2015-SEQ-0001" ["2015-SEQ-0001.fastq.gz"] "_R1" "_R2"
      = Except.ok none := by decide
  rw [hev] at hr
  injection hr with hr
  rw [← hr] at hl
  exact hl

/-- `str.replace('_S', '_00_S')` leaves a string without the marker unchanged. -/
theorem pyReplace_S_noMarker : ∀ l : List Char, hasMarker l = false → pyReplace_S l = l := by
  intro l
  induction l with
  | nil => intro _; rfl
  | cons c rest ih =>
    intro h
    cases rest with
    | nil => rfl
    | cons c2 rest2 =>
      simp only [hasMarker, Bool.or_eq_false_iff, decide_eq_false_iff_not] at h
      simp only [pyReplace_S]
      rw [if_neg h.1]
      rw [ih h.2]

/-- On a string with exactly one occurrence of `_S` (none in `x`, none in
`y`; the pattern cannot straddle the boundary since its two characters
differ), the replacement inserts `00` before that occurrence. -/
theorem pyReplace_S_single : ∀ x y : List Char, hasMarker x = false → hasMarker y = false →
    pyReplace_S (x ++ '_' :: 'S' :: y) = x ++ '_' :: '0' :: '0' :: '_' :: 'S' :: y := by
  intro x
  induction x with
  | nil =>
    intro y _ hy
    simp [pyReplace_S, pyReplace_S_noMarker y hy]
  | cons c x' ih =>
    intro y hx hy
    cases x' with
    | nil =>
      simp [pyReplace_S, pyReplace_S_noMarker y hy]
    | cons c2 x'' =>
      simp only [hasMarker, Bool.or_eq_false_iff, decide_eq_false_iff_not] at hx
      have h0 := ih y hx.2 hy
      simp only [List.cons_append] at h0 ⊢
      simp only [pyReplace_S]
      rw [if_neg hx.1, h0]

/-- When the rename loop returns, its rename list holds exactly the renames of
the files the validator accepted. -/
theorem append_dummy_barcodes_mem (a : String → String) :
    ∀ files ops, append_dummy_barcodes a files = Except.ok ops →
      ∀ p, p ∈ ops ↔ ∃ f, f ∈ files ∧ valid_olc_id f = Except.ok true ∧
        p = (a f, pyReplaceS (a f)) := by
  intro files
  induction files with
  | nil =>
    intro ops h p
    simp only [append_dummy_barcodes] at h
    injection h with h
    subst h
    simp
  | cons f rest ih =>
    intro ops h p
    simp only [append_dummy_barcodes] at h
    rcases hv : valid_olc_id f with e | b <;> rw [hv] at h
    · cases h
    · rcases hc : append_dummy_barcodes a rest with e | ops' <;> rw [hc] at h
      · cases h
      · injection h with h
        subst h
        have hrest := ih ops' hc p
        cases b
        · rw [if_neg (by simp)]
          constructor
          · intro hp
            obtain ⟨g, hg, h1, h2⟩ := hrest.mp hp
            exact ⟨g, List.mem_cons.mpr (Or.inr hg), h1, h2⟩
          · rintro ⟨g, hg, h1, h2⟩
            rcases List.mem_cons.mp hg with rfl | hgr
            · rw [hv] at h1
              exact absurd h1 (by simp)
            · exact hrest.mpr ⟨g, hgr, h1, h2⟩
        · rw [if_pos rfl]
          constructor
          · intro hp
            rcases List.mem_cons.mp hp with rfl | hpr
            · exact ⟨f, List.mem_cons_self f rest, hv, rfl⟩
            · obtain ⟨g, hg, h1, h2⟩ := hrest.mp hpr
              exact ⟨g, List.mem_cons.mpr (Or.inr hg), h1, h2⟩
          · rintro ⟨g, hg, h1, h2⟩
            rcases List.mem_cons.mp hg with rfl | hgr
            · subst h2
              exact List.mem_cons_self _ _
            · exact List.mem_cons.mpr (Or.inr (hrest.mpr ⟨g, hgr, h1, h2⟩))

/-- C5 counterexample.  The claim says the rename inserts `00` immediately
before the FIRST occurrence of `_S` in the filename.  The code uses
`str.replace('_S', '_00_S')`, which rewrites EVERY occurrence: on
`2015-SEQ-0001_S1_S2.fastq.gz` it produces
`2015-SEQ-0001_00_S1_00_S2.fastq.gz`, not the claimed
`2015-SEQ-0001_00_S1_S2.fastq.gz`. -/
theorem append_dummy_barcodes_every_occurrence_cex :
    append_dummy_barcodes id ["2015-SEQ-0001_S1_S2.fastq.gz"]
      = Except.ok [("2015-SEQ-0001_S1_S2.fastq.gz", "2015-SEQ-0001_00_S1_00_S2.fastq.gz")] ∧
    ("2015-SEQ-0001_00_S1_00_S2.fastq.gz" : String) ≠ "2015-SEQ-0001_00_S1_S2.fastq.gz" := by
  refine ⟨by decide, by decide⟩

/-- C5, amended.  `append_dummy_barcodes` renames every `.fastq.gz` file with
a valid leading identifier by replacing EVERY occurrence of `_S` with `_00_S`
(when the filename contains exactly one occurrence, this inserts `00`
immediately before it, as the second conjunct states); files without a valid
leading identifier are not renamed at all, and the rename list consists of
exactly the accepted files' renames. -/
theorem append_dummy_barcodes_spec (a : String → String) (files : List String)
    (ops : List (String × String)) (h : append_dummy_barcodes a files = Except.ok ops) :
    (∀ p, p ∈ ops ↔ ∃ f, f ∈ files ∧ valid_olc_id f = Except.ok true ∧
        p = (a f, pyReplaceS (a f))) ∧
    (∀ x y : List Char, hasMarker x = false → hasMarker y = false →
        pyReplace_S (x ++ '_' :: 'S' :: y) = x ++ '_' :: '0' :: '0' :: '_' :: 'S' :: y) :=
  ⟨append_dummy_barcodes_mem a files ops h, pyReplace_S_single⟩

/-- Witness for C5: on a concrete single-`_S` filename the rename produced is
exactly the insertion of `00` before the marker. -/
theorem append_dummy_barcodes_spec_witness :
    ("2015-SEQ-0001_S1_L001_R1_001.fastq.gz", "2015-SEQ-0001_00_S1_L001_R1_001.fastq.gz")
      ∈ [("2015-SEQ-0001_S1_L001_R1_001.fastq.gz",
          "2015-SEQ-0001_00_S1_L001_R1_001.fastq.gz")] := by
  obtain ⟨hmem, -⟩ := append_dummy_barcodes_spec id ["2015-SEQ-0001_S1_L001_R1_001.fastq.gz"]
    [("2015-SEQ-0001_S1_L001_R1_001.fastq.gz", "2015-SEQ-0001_00_S1_L001_R1_001.fastq.gz")]
    (by decide)
  exact (hmem _).mpr ⟨"2015-SEQ-0001_S1_L001_R1_001.fastq.gz", by simp, by decide, by decide⟩

/-- State extension: no symlink is removed, no log line is dropped, no name
disappears from the filesystem.  Every operation in the materialization loop
extends the state in this sense — in particular there is no rollback. -/
def StExt (s s' : St) : Prop :=
  (∀ l, l ∈ s.fs.links → l ∈ s'.fs.links) ∧
  (∀ e, e ∈ s.logs → e ∈ s'.logs) ∧
  (∀ n, n ∈ fsNames s.fs → n ∈ fsNames s'.fs)

theorem StExt_refl (s : St) : StExt s s :=
  ⟨fun _ h => h, fun _ h => h, fun _ h => h⟩

theorem StExt_trans {s s' s'' : St} (h1 : StExt s s') (h2 : StExt s' s'') : StExt s s'' :=
  ⟨fun l hl => h2.1 l (h1.1 l hl), fun e he => h2.2.1 e (h1.2.1 e he),
   fun n hn => h2.2.2 n (h1.2.2 n hn)⟩

theorem mPure_ext {α : Type} (v : α) (s : St) :
    ∀ r s', mPure v s = (r, s') → StExt s s' := by
  intro r s' h
  unfold mPure at h
  injection h with h1 h2
  subst h2
  exact StExt_refl s

theorem mThrow_ext {α : Type} (e : PyErr) (s : St) :
    ∀ (r : Except PyErr α) s', mThrow e s = (r, s') → StExt s s' := by
  intro r s' h
  unfold mThrow at h
  injection h with h1 h2
  subst h2
  exact StExt_refl s

theorem mLog_ext (lv : LogLevel) (msg : String) (s : St) :
    ∀ r s', mLog lv msg s = (r, s') → StExt s s' := by
  intro r s' h
  unfold mLog at h
  injection h with h1 h2
  subst h2
  exact ⟨fun _ h => h, fun e he => List.mem_append.mpr (Or.inl he), fun _ h => h⟩

theorem symlinkM_ext (t l : String) (s : St) :
    ∀ r s', symlinkM t l s = (r, s') → StExt s s' := by
  intro r s' h
  unfold symlinkM at h
  split at h
  · injection h with h1 h2
    subst h2
    exact StExt_refl s
  · injection h with h1 h2
    subst h2
    refine ⟨fun x hx => List.mem_cons.mpr (Or.inr hx), fun _ h => h, ?_⟩
    intro n hn
    simp only [fsNames, List.map_cons, List.mem_append, List.mem_cons] at hn ⊢
    tauto

theorem create_symlink_ext (t : Option String) (dest : String) (s : St) :
    ∀ r s', create_symlink t dest s = (r, s') → StExt s s' := by
  intro r s' h
  cases t with
  | none => exact mThrow_ext _ s r s' h
  | some t0 => exact symlinkM_ext t0 _ s r s' h

theorem subscriptPair_ext (v : SVal) (i : Nat) (s : St) :
    ∀ r s', subscriptPair v i s = (r, s') → StExt s s' := by
  intro r s' h
  cases v with
  | none => exact mThrow_ext _ s r s' h
  | some p => exact mPure_ext _ s r s' h

theorem mBind_ext {α β : Type} (x : M α) (f : α → M β)
    (hx : ∀ s r s', x s = (r, s') → StExt s s')
    (hf : ∀ v s r s', f v s = (r, s') → StExt s s') :
    ∀ s r s', mBind x f s = (r, s') → StExt s s' := by
  intro s r s' h
  unfold mBind at h
  rcases hx0 : x s with ⟨xr, xs1⟩
  rw [hx0] at h
  cases xr with
  | ok v => exact StExt_trans (hx s _ _ hx0) (hf v xs1 r s' h)
  | error e =>
    injection h with h1 h2
    subst h2
    exact hx s _ _ hx0

theorem mTry_ext {α : Type} (x h : M α)
    (hx : ∀ s r s', x s = (r, s') → StExt s s')
    (hh : ∀ s r s', h s = (r, s') → StExt s s') :
    ∀ s r s', mTry x h s = (r, s') → StExt s s' := by
  intro s r s' hrun
  unfold mTry at hrun
  rcases hx0 : x s with ⟨xr, xs1⟩
  rw [hx0] at hrun
  cases xr with
  | ok v =>
    injection hrun with h1 h2
    subst h2
    exact hx s _ _ hx0
  | error e => exact StExt_trans (hx s _ _ hx0) (hh xs1 r s' hrun)

theorem symlinkEntryBody_ext (dest k : String) (v : SVal) :
    ∀ s r s', symlinkEntryBody dest k v s = (r, s') → StExt s s' := by
  unfold symlinkEntryBody
  exact mBind_ext _ _ (subscriptPair_ext v 0)
    (fun t0 => mBind_ext _ _ (create_symlink_ext t0 dest)
      (fun _ => mBind_ext _ _ (subscriptPair_ext v 1)
        (fun t1 => mBind_ext _ _ (create_symlink_ext t1 dest)
          (fun _ => mLog_ext LogLevel.debug (dbgMsg k)))))

theorem symlinkEntry_ext (dest : String) (kv : String × SVal) :
    ∀ s r s', symlinkEntry dest kv s = (r, s') → StExt s s' := by
  unfold symlinkEntry
  exact mTry_ext _ _ (symlinkEntryBody_ext dest kv.1 kv.2)
    (mLog_ext LogLevel.error (errMsg kv.1))

theorem symlinkGo_ext (dest : String) :
    ∀ d : SDict, ∀ s r s', symlinkGo dest d s = (r, s') → StExt s s' := by
  intro d
  induction d with
  | nil => exact fun s r s' h => mPure_ext () s r s' h
  | cons kv rest ih =>
    exact mBind_ext _ _ (symlinkEntry_ext dest kv) (fun _ => ih)

/-- Inversion for `mBind`: a run of `mBind x f` either went through a
successful `x` and continued, or stopped at `x`'s exception. -/
theorem mBind_eq {α β : Type} {x : M α} {f : α → M β} {s s' : St} {r : Except PyErr β}
    (h : mBind x f s = (r, s')) :
    (∃ v s1, x s = (Except.ok v, s1) ∧ f v s1 = (r, s')) ∨
    (∃ e, x s = (Except.error e, s') ∧ r = Except.error e) := by
  unfold mBind at h
  rcases hx : x s with ⟨xr, xs⟩
  rw [hx] at h
  cases xr with
  | ok v => exact Or.inl ⟨v, xs, rfl, h⟩
  | error e =>
    injection h with h1 h2
    subst h2
    exact Or.inr ⟨e, rfl, h1.symm⟩

/-- Inversion for `mTry`: either the try block succeeded, or it raised and the
handler ran from the state the block left behind. -/
theorem mTry_eq {α : Type} {x hdl : M α} {s s' : St} {r : Except PyErr α}
    (h : mTry x hdl s = (r, s')) :
    (∃ v, x s = (Except.ok v, s') ∧ r = Except.ok v) ∨
    (∃ e s1, x s = (Except.error e, s1) ∧ hdl s1 = (r, s')) := by
  unfold mTry at h
  rcases hx : x s with ⟨xr, xs⟩
  rw [hx] at h
  cases xr with
  | ok v =>
    injection h with h1 h2
    subst h2
    exact Or.inl ⟨v, rfl, h1.symm⟩
  | error e => exact Or.inr ⟨e, xs, rfl, h⟩

/-- The bare `except` makes each loop iteration total: whatever happens inside
the try block, the iteration returns normally. -/
theorem symlinkEntry_ok (dest : String) (kv : String × SVal) (s : St) :
    ∃ s', symlinkEntry dest kv s = (Except.ok (), s') := by
  unfold symlinkEntry mTry
  rcases hb : symlinkEntryBody dest kv.1 kv.2 s with ⟨br, bs⟩
  cases br with
  | ok v =>
    cases v
    exact ⟨bs, rfl⟩
  | error e =>
    exact ⟨{ bs with logs := bs.logs ++ [(LogLevel.error, errMsg kv.1)] }, rfl⟩

/-- If the try block of an iteration succeeds, its last statement has put the
per-sample debug message into the log. -/
theorem symlinkEntryBody_ok_log (dest k : String) (v : SVal) (s : St) :
    ∀ x s', symlinkEntryBody dest k v s = (Except.ok x, s') →
      (LogLevel.debug, dbgMsg k) ∈ s'.logs := by
  intro x s' h
  unfold symlinkEntryBody at h
  rcases mBind_eq h with ⟨t0, s0, h0, h⟩ | ⟨e, -, he⟩
  · rcases mBind_eq h with ⟨u, s1, h1, h⟩ | ⟨e, -, he⟩
    · rcases mBind_eq h with ⟨t1, s2, h2, h⟩ | ⟨e, -, he⟩
      · rcases mBind_eq h with ⟨u2, s3, h3, h⟩ | ⟨e, -, he⟩
        · unfold mLog at h
          injection h with ha hb
          subst hb
          simp
        · cases he
      · cases he
    · cases he
  · cases he

/-- Every iteration leaves a log line naming its sample: the debug line on
success, or the handler's error line on any caught exception. -/
theorem symlinkEntry_logs (dest : String) (kv : String × SVal) (s : St) :
    ∀ r s', symlinkEntry dest kv s = (r, s') →
      (LogLevel.debug, dbgMsg kv.1) ∈ s'.logs ∨ (LogLevel.error, errMsg kv.1) ∈ s'.logs := by
  intro r s' h
  unfold symlinkEntry at h
  rcases mTry_eq h with ⟨v, hb, -⟩ | ⟨e, s1, -, hh⟩
  · exact Or.inl (symlinkEntryBody_ok_log dest kv.1 kv.2 s v s' hb)
  · unfold mLog at hh
    injection hh with h1 h2
    subst h2
    exact Or.inr (by simp)

/-- The loop is total: every run returns `Except.ok`. -/
theorem symlinkGo_ok (dest : String) :
    ∀ d : SDict, ∀ s, ∃ s', symlinkGo dest d s = (Except.ok (), s') := by
  intro d
  induction d with
  | nil => intro s; exact ⟨s, rfl⟩
  | cons kv rest ih =>
    intro s
    obtain ⟨s1, h1⟩ := symlinkEntry_ok dest kv s
    obtain ⟨s2, h2⟩ := ih s1
    refine ⟨s2, ?_⟩
    show mBind (symlinkEntry dest kv) (fun _ => symlinkGo dest rest) s = _
    unfold mBind
    rw [h1]
    exact h2

/-- Every dictionary entry is processed and logged, whatever happened to the
entries before it. -/
theorem symlinkGo_logs (dest : String) :
    ∀ d : SDict, ∀ s r s', symlinkGo dest d s = (r, s') →
      ∀ kv, kv ∈ d → (LogLevel.debug, dbgMsg kv.1) ∈ s'.logs ∨
        (LogLevel.error, errMsg kv.1) ∈ s'.logs := by
  intro d
  induction d with
  | nil => intro s r s' _ kv hkv; exact absurd hkv (List.not_mem_nil kv)
  | cons kv0 rest ih =>
    intro s r s' h kv hkv
    replace h : mBind (symlinkEntry dest kv0) (fun _ => symlinkGo dest rest) s = (r, s') := h
    rcases mBind_eq h with ⟨v, s1, h1, hh⟩ | ⟨e, h1, -⟩
    · rcases List.mem_cons.mp hkv with rfl | hkvr
      · have hlog := symlinkEntry_logs dest kv s (Except.ok v) s1 h1
        have hext := symlinkGo_ext dest rest s1 r s' hh
        rcases hlog with hl | hl
        · exact Or.inl (hext.2.1 _ hl)
        · exact Or.inr (hext.2.1 _ hl)
      · exact ih s1 r s' hh kv hkvr
    · obtain ⟨s2, h2⟩ := symlinkEntry_ok dest kv0 s
      rw [h2] at h1
      simp at h1

/-- When the forward target's link name already exists, the iteration's first
`os.symlink` raises `FileExistsError` before any state change, and the handler
appends the error line: the state is unchanged except for the log. -/
theorem symlinkEntry_err_of_collision (dest k t0 : String) (t1 : Option String) (s : St)
    (hcol : pyJoin dest (basename t0) ∈ fsNames s.fs) :
    symlinkEntry dest (k, some (some t0, t1)) s
      = (Except.ok (), { s with logs := s.logs ++ [(LogLevel.error, errMsg k)] }) := by
  have hbody : symlinkEntryBody dest k (some (some t0, t1)) s
      = (Except.error PyErr.fileExists, s) := by
    have hcs : create_symlink (some t0) dest s = (Except.error PyErr.fileExists, s) := by
      show symlinkM t0 (pyJoin dest (basename t0)) s = _
      simp only [symlinkM]
      rw [if_pos hcol]
    show mBind (subscriptPair (some (some t0, t1)) 0) _ s = _
    unfold mBind
    rw [show subscriptPair (some (some t0, t1)) 0 s = (Except.ok (some t0), s) from rfl]
    show mBind (create_symlink (some t0) dest) _ s = _
    unfold mBind
    rw [hcs]
  show mTry (symlinkEntryBody dest k (some (some t0, t1))) _ s = _
  unfold mTry
  rw [hbody]
  rfl

/-- A dictionary value that is `None`, or a pair with a `None` slot. -/
def badValue : SVal → Bool
  | none => true
  | some (a, b) => a.isNone || b.isNone

/-- Whatever exception a bad value provokes inside the try block
(`TypeError` from `None[0]`, from `os.path.basename(None)`, or
`FileExistsError` from the link), the handler logs the same
already-exist error line naming the sample. -/
theorem symlinkEntry_err_of_badValue (dest k : String) (v : SVal) (s : St)
    (hbad : badValue v = true) :
    ∀ r s', symlinkEntry dest (k, v) s = (r, s') → (LogLevel.error, errMsg k) ∈ s'.logs := by
  intro r s' h
  rcases v with - | ⟨a, b⟩
  · have he : symlinkEntry dest (k, (none : SVal)) s
        = (Except.ok (), { s with logs := s.logs ++ [(LogLevel.error, errMsg k)] }) := rfl
    rw [he] at h
    injection h with h1 h2
    subst h2
    simp
  · rcases a with - | t0
    · have he : symlinkEntry dest (k, some (none, b)) s
          = (Except.ok (), { s with logs := s.logs ++ [(LogLevel.error, errMsg k)] }) := rfl
      rw [he] at h
      injection h with h1 h2
      subst h2
      simp
    · rcases b with - | t1
      · by_cases hc : pyJoin dest (basename t0) ∈ fsNames s.fs
        · rw [symlinkEntry_err_of_collision dest k t0 none s hc] at h
          injection h with h1 h2
          subst h2
          simp
        · have he : symlinkEntry dest (k, some (some t0, none)) s
              = (Except.ok (), { s with
                  fs := { s.fs with
                    links := (pyJoin dest (basename t0), t0) :: s.fs.links },
                  logs := s.logs ++ [(LogLevel.error, errMsg k)] }) := by
            have hcs : create_symlink (some t0) dest s
                = (Except.ok (), { s with fs := { s.fs with
                    links := (pyJoin dest (basename t0), t0) :: s.fs.links } }) := by
              show symlinkM t0 (pyJoin dest (basename t0)) s = _
              simp only [symlinkM]
              rw [if_neg hc]
            have hbody : symlinkEntryBody dest k (some (some t0, none)) s
                = (Except.error PyErr.typeError, { s with fs := { s.fs with
                    links := (pyJoin dest (basename t0), t0) :: s.fs.links } }) := by
              show mBind (subscriptPair (some (some t0, none)) 0) _ s = _
              unfold mBind
              rw [show subscriptPair (some (some t0, none)) 0 s
                  = (Except.ok (some t0), s) from rfl]
              show mBind (create_symlink (some t0) dest) _ s = _
              unfold mBind
              rw [hcs]
              rfl
            show mTry (symlinkEntryBody dest k (some (some t0, none))) _ s = _
            unfold mTry
            rw [hbody]
            rfl
          rw [he] at h
          injection h with h1 h2
          subst h2
          simp
      · simp [badValue] at hbad

/-- Through the whole loop: an entry whose forward-target link name already
exists when the loop starts gets the error line logged (names only accumulate,
so the collision still holds when the entry is reached). -/
theorem symlinkGo_err_collision (dest : String) :
    ∀ d : SDict, ∀ s r s', symlinkGo dest d s = (r, s') →
      ∀ k t0 t1, (k, some (some t0, t1)) ∈ d → pyJoin dest (basename t0) ∈ fsNames s.fs →
        (LogLevel.error, errMsg k) ∈ s'.logs := by
  intro d
  induction d with
  | nil => intro s r s' _ k t0 t1 hmem _; exact absurd hmem (List.not_mem_nil _)
  | cons kv0 rest ih =>
    intro s r s' h k t0 t1 hmem hcol
    replace h : mBind (symlinkEntry dest kv0) (fun _ => symlinkGo dest rest) s = (r, s') := h
    rcases mBind_eq h with ⟨v, s1, h1, hh⟩ | ⟨e, h1, -⟩
    · rcases List.mem_cons.mp hmem with heq | hmem'
      · rw [← heq] at h1
        rw [symlinkEntry_err_of_collision dest k t0 t1 s hcol] at h1
        injection h1 with ha hb
        have hext := symlinkGo_ext dest rest s1 r s' hh
        apply hext.2.1
        rw [← hb]
        simp
      · have hext1 := symlinkEntry_ext dest kv0 s (Except.ok v) s1 h1
        exact ih s1 r s' hh k t0 t1 hmem' (hext1.2.2 _ hcol)
    · obtain ⟨s2, h2⟩ := symlinkEntry_ok dest kv0 s
      rw [h2] at h1
      simp at h1

/-- Through the whole loop: an entry with a bad value (null, or a pair with a
null slot) gets the error line logged. -/
theorem symlinkGo_err_bad (dest : String) :
    ∀ d : SDict, ∀ s r s', symlinkGo dest d s = (r, s') →
      ∀ kv, kv ∈ d → badValue kv.2 = true → (LogLevel.error, errMsg kv.1) ∈ s'.logs := by
  intro d
  induction d with
  | nil => intro s r s' _ kv hmem _; exact absurd hmem (List.not_mem_nil _)
  | cons kv0 rest ih =>
    intro s r s' h kv hmem hbad
    replace h : mBind (symlinkEntry dest kv0) (fun _ => symlinkGo dest rest) s = (r, s') := h
    rcases mBind_eq h with ⟨v, s1, h1, hh⟩ | ⟨e, h1, -⟩
    · rcases List.mem_cons.mp hmem with rfl | hmem'
      · have hlog := symlinkEntry_err_of_badValue dest kv.1 kv.2 s hbad (Except.ok v) s1
          (by rw [← h1])
        have hext := symlinkGo_ext dest rest s1 r s' hh
        exact hext.2.1 _ hlog
      · exact ih s1 r s' hh kv hmem' hbad
    · obtain ⟨s2, h2⟩ := symlinkEntry_ok dest kv0 s
      rw [h2] at h1
      simp at h1

/-- C6 (confirmed).  For every registry, destination and starting state,
`symlink_dictionary` returns normally (never raises), removes no pre-existing
symlink (no rollback), leaves a per-sample log line for EVERY entry (the loop
always continues past failures), and for any entry whose forward-read link
name already exists in the starting state, the failure is caught and the error
line naming that sample is logged. -/
theorem symlink_dictionary_error_handling (d : SDict) (dest : String) (s : St) :
    ∃ s', symlink_dictionary d dest s = (Except.ok (), s') ∧
      (∀ l, l ∈ s.fs.links → l ∈ s'.fs.links) ∧
      (∀ kv, kv ∈ d → (LogLevel.debug, dbgMsg kv.1) ∈ s'.logs ∨
        (LogLevel.error, errMsg kv.1) ∈ s'.logs) ∧
      (∀ k t0 t1, (k, some (some t0, t1)) ∈ d → pyJoin dest (basename t0) ∈ fsNames s.fs →
        (LogLevel.error, errMsg k) ∈ s'.logs) := by
  obtain ⟨s', hgo⟩ := symlinkGo_ok dest d
    { s with logs := s.logs ++ [(LogLevel.info, "Creating symlinks for samples at " ++ dest)] }
  have hrun : symlink_dictionary d dest s = (Except.ok (), s') := by
    show mBind (mLog LogLevel.info ("Creating symlinks for samples at " ++ dest)) _ s = _
    unfold mBind mLog
    exact hgo
  refine ⟨s', hrun, ?_, ?_, ?_⟩
  · intro l hl
    exact (symlinkGo_ext dest d _ _ _ hgo).1 l hl
  · intro kv hkv
    exact symlinkGo_logs dest d _ _ _ hgo kv hkv
  · intro k t0 t1 hmem hcol
    exact symlinkGo_err_collision dest d _ _ _ hgo k t0 t1 hmem hcol

/-- Witness for C6: materializing one sample whose forward link name already
exists in the destination returns normally and logs the error line naming the
sample. -/
theorem symlink_dictionary_error_handling_witness :
    ∃ s', symlink_dictionary
        [("2015-SEQ-0001", some (some "/in/2015-SEQ-0001_R1.fastq.gz",
                                 some "/in/2015-SEQ-0001_R2.fastq.gz"))]
        "/out/data"
        ⟨⟨[], [], [("/out/data/2015-SEQ-0001_R1.fastq.gz", "/old/target")]⟩, []⟩
      = (Except.ok (), s') ∧ (LogLevel.error, errMsg "2015-SEQ-0001") ∈ s'.logs := by
  obtain ⟨s', h1, h2, h3, h4⟩ := symlink_dictionary_error_handling
    [("2015-SEQ-0001", some (some "/in/2015-SEQ-0001_R1.fastq.gz",
                             some "/in/2015-SEQ-0001_R2.fastq.gz"))]
    "/out/data"
    ⟨⟨[], [], [("/out/data/2015-SEQ-0001_R1.fastq.gz", "/old/target")]⟩, []⟩
  refine ⟨s', h1, h4 "2015-SEQ-0001" "/in/2015-SEQ-0001_R1.fastq.gz"
    (some "/in/2015-SEQ-0001_R2.fastq.gz") (by simp) ?_⟩
  have he : pyJoin "/out/data" (basename "/in/2015-SEQ-0001_R1.fastq.gz")
      = "/out/data/2015-SEQ-0001_R1.fastq.gz" := by decide
  rw [he]
  simp [fsNames]

/-- C10 (confirmed).  `symlink_dictionary` is total over arbitrary registry
contents: it always returns `Except.ok` — the per-sample bare `except` catches
every exception the try block can produce — and every entry whose value is
null (absent pairing) or a pair with a null slot gets the
symlink-already-exists error message logged, regardless of the actual cause
(there a `TypeError`, not a `FileExistsError`). -/
theorem symlink_dictionary_total (d : SDict) (dest : String) (s : St) :
    ∃ s', symlink_dictionary d dest s = (Except.ok (), s') ∧
      ∀ kv, kv ∈ d → badValue kv.2 = true → (LogLevel.error, errMsg kv.1) ∈ s'.logs := by
  obtain ⟨s', hgo⟩ := symlinkGo_ok dest d
    { s with logs := s.logs ++ [(LogLevel.info, "Creating symlinks for samples at " ++ dest)] }
  have hrun : symlink_dictionary d dest s = (Except.ok (), s') := by
    show mBind (mLog LogLevel.info ("Creating symlinks for samples at " ++ dest)) _ s = _
    unfold mBind mLog
    exact hgo
  exact ⟨s', hrun, fun kv hkv hbad => symlinkGo_err_bad dest d _ _ _ hgo kv hkv hbad⟩

/-- Witness for C10: a registry whose single entry has value `None` is
processed without an exception and the (misleading) already-exist error line
is logged for it. -/
theorem symlink_dictionary_total_witness :
    ∃ s', symlink_dictionary [("2015-SEQ-0009", (none : SVal))] "/out/data" ⟨⟨[], [], []⟩, []⟩
      = (Except.ok (), s') ∧ (LogLevel.error, errMsg "2015-SEQ-0009") ∈ s'.logs := by
  obtain ⟨s', h1, h2⟩ := symlink_dictionary_total [("2015-SEQ-0009", (none : SVal))]
    "/out/data" ⟨⟨[], [], []⟩, []⟩
  exact ⟨s', h1, h2 ("2015-SEQ-0009", none) (by simp) (by decide)⟩

/-- No-cleanup property of an action: directories are never removed and the
number of symlinks never decreases, whether the action returns or raises. -/
def MonoM {α : Type} (m : M α) : Prop :=
  ∀ s r s', m s = (r, s') →
    (∀ x, x ∈ s.fs.dirs → x ∈ s'.fs.dirs) ∧ s.fs.links.length ≤ s'.fs.links.length

theorem monoM_mPure {α : Type} (v : α) : MonoM (mPure v) := by
  intro s r s' h
  unfold mPure at h
  injection h with h1 h2
  subst h2
  exact ⟨fun _ hx => hx, le_refl _⟩

theorem monoM_mThrow {α : Type} (e : PyErr) : MonoM (mThrow e : M α) := by
  intro s r s' h
  unfold mThrow at h
  injection h with h1 h2
  subst h2
  exact ⟨fun _ hx => hx, le_refl _⟩

theorem monoM_mLift {α : Type} (x : Except PyErr α) : MonoM (mLift x) := by
  intro s r s' h
  unfold mLift at h
  injection h with h1 h2
  subst h2
  exact ⟨fun _ hx => hx, le_refl _⟩

theorem monoM_mLog (lv : LogLevel) (msg : String) : MonoM (mLog lv msg) := by
  intro s r s' h
  unfold mLog at h
  injection h with h1 h2
  subst h2
  exact ⟨fun _ hx => hx, le_refl _⟩

theorem monoM_retrieve (dir : String) : MonoM (retrieve_fastqgzM dir) := by
  intro s r s' h
  unfold retrieve_fastqgzM at h
  injection h with h1 h2
  subst h2
  exact ⟨fun _ hx => hx, le_refl _⟩

theorem monoM_mkdirM (d : String) : MonoM (mkdirM d) := by
  intro s r s' h
  unfold mkdirM at h
  split at h <;> injection h with h1 h2 <;> subst h2
  · exact ⟨fun _ hx => hx, le_refl _⟩
  · exact ⟨fun x hx => List.mem_cons.mpr (Or.inr hx), le_refl _⟩

theorem monoM_symlinkM (t l : String) : MonoM (symlinkM t l) := by
  intro s r s' h
  unfold symlinkM at h
  split at h <;> injection h with h1 h2 <;> subst h2
  · exact ⟨fun _ hx => hx, le_refl _⟩
  · exact ⟨fun _ hx => hx, Nat.le_succ _⟩

theorem monoM_renameM (o n : String) : MonoM (renameM o n) := by
  intro s r s' h
  unfold renameM at h
  split at h <;> injection h with h1 h2 <;> subst h2
  · exact ⟨fun _ hx => hx, le_of_eq (List.length_map _ _).symm⟩
  · exact ⟨fun _ hx => hx, le_refl _⟩

theorem monoM_mBind {α β : Type} (x : M α) (f : α → M β)
    (hx : MonoM x) (hf : ∀ v, MonoM (f v)) : MonoM (mBind x f) := by
  intro s r s' h
  rcases mBind_eq h with ⟨v, s1, h1, h2⟩ | ⟨e, h1, -⟩
  · obtain ⟨d1, l1⟩ := hx s _ _ h1
    obtain ⟨d2, l2⟩ := hf v s1 _ _ h2
    exact ⟨fun x hx0 => d2 x (d1 x hx0), le_trans l1 l2⟩
  · exact hx s _ _ h1

theorem monoM_mTry {α : Type} (x hdl : M α) (hx : MonoM x) (hh : MonoM hdl) :
    MonoM (mTry x hdl) := by
  intro s r s' h
  rcases mTry_eq h with ⟨v, h1, -⟩ | ⟨e, s1, h1, h2⟩
  · exact hx s _ _ h1
  · obtain ⟨d1, l1⟩ := hx s _ _ h1
    obtain ⟨d2, l2⟩ := hh s1 _ _ h2
    exact ⟨fun x hx0 => d2 x (d1 x hx0), le_trans l1 l2⟩

theorem monoM_ite {α : Type} (c : Prop) [Decidable c] (x y : M α)
    (hx : MonoM x) (hy : MonoM y) : MonoM (if c then x else y) := by
  by_cases hc : c
  · rw [if_pos hc]; exact hx
  · rw [if_neg hc]; exact hy

theorem monoM_subscriptPair (v : SVal) (i : Nat) : MonoM (subscriptPair v i) := by
  cases v with
  | none => exact monoM_mThrow _
  | some p => exact monoM_mPure _

theorem monoM_create_symlink (t : Option String) (dest : String) :
    MonoM (create_symlink t dest) := by
  cases t with
  | none => exact monoM_mThrow _
  | some t0 => exact monoM_symlinkM _ _

theorem monoM_symlinkEntry (dest : String) (kv : String × SVal) :
    MonoM (symlinkEntry dest kv) := by
  exact monoM_mTry _ _
    (monoM_mBind _ _ (monoM_subscriptPair _ _)
      (fun t0 => monoM_mBind _ _ (monoM_create_symlink t0 dest)
        (fun _ => monoM_mBind _ _ (monoM_subscriptPair _ _)
          (fun t1 => monoM_mBind _ _ (monoM_create_symlink t1 dest)
            (fun _ => monoM_mLog _ _)))))
    (monoM_mLog _ _)

theorem monoM_symlinkGo (dest : String) : ∀ d : SDict, MonoM (symlinkGo dest d) := by
  intro d
  induction d with
  | nil => exact monoM_mPure ()
  | cons kv rest ih => exact monoM_mBind _ _ (monoM_symlinkEntry dest kv) (fun _ => ih)

theorem monoM_symlink_dictionary (d : SDict) (dest : String) :
    MonoM (symlink_dictionary d dest) :=
  monoM_mBind _ _ (monoM_mLog _ _) (fun _ => monoM_symlinkGo dest d)

theorem monoM_appendGo (a : String → String) : ∀ files : List String, MonoM (appendGo a files) := by
  intro files
  induction files with
  | nil => exact monoM_mPure ()
  | cons f rest ih =>
    exact monoM_mBind _ _ (monoM_mLift _)
      (fun b => monoM_mBind _ _ (monoM_ite _ _ _ (monoM_renameM _ _) (monoM_mPure ()))
        (fun _ => ih))

theorem monoM_append_dummy_barcodesM (a : String → String) (path : String) :
    MonoM (append_dummy_barcodesM a path) :=
  monoM_mBind _ _ (monoM_retrieve _)
    (fun files => monoM_mBind _ _ (monoM_appendGo a files) (fun _ => monoM_mLog _ _))

theorem monoM_create_sampledata_artifact (exec : String → String × String)
    (datadir qiimedir : String) : MonoM (create_sampledata_artifact exec datadir qiimedir) :=
  monoM_mBind _ _ (monoM_ite _ _ _ (monoM_mLog _ _) (monoM_mPure ()))
    (fun _ => monoM_mBind _ _ (monoM_mLog _ _) (fun _ => monoM_mPure _))

theorem monoM_project_setup (a : String → String) (exec : String → String × String)
    (outdir inputdir : String) : MonoM (project_setup a exec outdir inputdir) :=
  monoM_mBind _ _ (monoM_mkdirM _)
    (fun _ => monoM_mBind _ _ (monoM_mkdirM _)
      (fun _ => monoM_mBind _ _ (monoM_mkdirM _)
        (fun _ => monoM_mBind _ _ (monoM_mLog _ _)
          (fun _ => monoM_mBind _ _ (monoM_retrieve _)
            (fun _files => monoM_mBind _ _ (monoM_mLift _)
              (fun _d => monoM_mBind _ _ (monoM_mLog _ _)
                (fun _ => monoM_mBind _ _ (monoM_symlink_dictionary _ _)
                  (fun _ => monoM_mBind _ _ (monoM_append_dummy_barcodesM _ _)
                    (fun _ => monoM_mBind _ _ (monoM_mLog _ _)
                      (fun _ => monoM_create_sampledata_artifact _ _ _))))))))))

/-- C8 (confirmed).  When `output_dir` already exists, `project_setup` fails
fatally at step 1: `os.mkdir` raises `FileExistsError`, nothing catches it,
and the state is returned exactly as it was (nothing created, nothing
removed).  Moreover — whatever happens, at any step — the orchestrator
performs no cleanup: no directory is ever removed and the number of symlinks
never decreases. -/
theorem project_setup_existing_outdir (a : String → String)
    (exec : String → String × String) (outdir inputdir : String) (s : St) :
    (outdir ∈ s.fs.dirs →
      project_setup a exec outdir inputdir s = (Except.error PyErr.fileExists, s)) ∧
    (∀ r s', project_setup a exec outdir inputdir s = (r, s') →
      (∀ x, x ∈ s.fs.dirs → x ∈ s'.fs.dirs) ∧ s.fs.links.length ≤ s'.fs.links.length) := by
  constructor
  · intro hmem
    have hn : outdir ∈ fsNames s.fs := by
      unfold fsNames
      exact List.mem_append.mpr (Or.inr hmem)
    have hk : mkdirM outdir s = (Except.error PyErr.fileExists, s) := by
      unfold mkdirM
      rw [if_pos hn]
    show mBind (mkdirM outdir) _ s = _
    unfold mBind
    rw [hk]
  · intro r s' h
    exact monoM_project_setup a exec outdir inputdir s r s' h

/-- Witness for C8: on a state whose filesystem already has the output
directory, `project_setup` returns the propagating `FileExistsError` with the
state untouched. -/
theorem project_setup_existing_outdir_witness :
    project_setup id (fun _ => ("", "")) "out" "in" ⟨⟨["out"], [], []⟩, []⟩
      = (Except.error PyErr.fileExists, ⟨⟨["out"], [], []⟩, []⟩) :=
  (project_setup_existing_outdir id (fun _ => ("", "")) "out" "in"
    ⟨⟨["out"], [], []⟩, []⟩).1 (by simp)
